import Mathlib

/-!
Verification of the embedding-aggregation-and-clustering core of the
somesup-cloud pipeline.

The development shallowly embeds the algorithmic core of four Python
modules:

* `src/src/clustering_articles/main.py` — the similarity-threshold greedy
  clustering variant (`ClusterClient.cluster_articles`) together with its
  validity filter and embedding mapper;
* `src/terraform/src/clustering_articles/main.py` — the density-based
  clustering variant, the smart batcher (`GeminiClient._create_smart_batches`),
  and the batch/individual embedding fallback
  (`GeminiClient._get_embeddings_batch`, `_get_embeddings_individually`,
  `map_embeddings`);
* `src/terraform/src/calculate_user_embeddings/main.py` — `chunked` and the
  bulk user-embedding generator (`generate_all_user_embeddings`);
* `src/terraform/src/recalculate_user_embeddings/main.py` — the single-user
  generator (`generate_user_embedding`) and its helpers
  (`_compute_user_embedding`, `_section_preference_embedding`, `_postprocess`).

Floating-point values are modelled as exact rationals (ℚ); the square-root
laden post-processing (`np.linalg.norm`) is modelled over ℝ.  External
collaborators (the Gemini embedding provider, sklearn's cosine-similarity
routine, hdbscan's label assignment, MySQL/BigQuery row stores) are
parameters of the embedded functions, exactly at the call boundaries the
Python code uses them.
-/

set_option maxHeartbeats 1000000
set_option maxRecDepth 40000

/-- `SimpleArticle` from both clustering modules: integer id, title, content
and an optional embedding vector (floats modelled as ℚ; Python strings
modelled as character lists). -/
structure SimpleArticle where
  id : Int
  title : List Char
  content : List Char
  embedding_vector : Option (List ℚ)
  deriving DecidableEq

instance : Inhabited SimpleArticle := ⟨⟨0, [], [], none⟩⟩

/-! ### Vector arithmetic (numpy operations used by the Python code) -/

/-- Elementwise scaling `np.array(emb) * w`. -/
def vec_scale (w : ℚ) (v : List ℚ) : List ℚ := v.map (fun x => x * w)

/-- Elementwise addition of two equally-shaped vectors. -/
def vec_add (v w : List ℚ) : List ℚ := List.zipWith (fun a b => a + b) v w

/-- `np.sum(vs, axis=0)` for a non-empty list of equally-shaped vectors. -/
def vec_sum : List (List ℚ) → List ℚ
  | [] => []
  | v :: vs => vs.foldl vec_add v

/-- Elementwise division by a scalar. -/
def vec_div (v : List ℚ) (c : ℚ) : List ℚ := v.map (fun x => x / c)

/-- `np.mean(vs, axis=0)`: elementwise sum divided by the number of vectors. -/
def mean_embedding (vs : List (List ℚ)) : List ℚ := vec_div (vec_sum vs) (vs.length : ℚ)

/-- Sum of squares of the entries of a real vector. -/
noncomputable def sum_sq (v : List ℝ) : ℝ := (v.map (fun x => x ^ 2)).sum

/-- Euclidean norm `np.linalg.norm v`. -/
noncomputable def l2_norm (v : List ℝ) : ℝ := Real.sqrt (sum_sq v)

/-- Entrywise embedding of an exact rational vector into the reals. -/
def castR (v : List ℚ) : List ℝ := v.map Rat.cast

/-- `UserEmbeddingGenerator._postprocess` with `ENABLE_L2_NORMALIZE = True`:
divide by the Euclidean norm when it is positive, else return the vector
unchanged. -/
noncomputable def postprocess (embedding : List ℚ) : List ℝ :=
  if 0 < l2_norm (castR embedding) then
    (castR embedding).map (fun x => x / l2_norm (castR embedding))
  else castR embedding

/-- The row normalization in the density variant of `cluster_articles`:
`vectors / np.where(norms == 0, 1, norms)` for one row. -/
noncomputable def l2_normalize_row (v : List ℚ) : List ℝ :=
  (castR v).map
    (fun x => x / (if l2_norm (castR v) = 0 then 1 else l2_norm (castR v)))

/-- Dot product of two rational vectors. -/
def dotQ (a b : List ℚ) : ℚ := (List.zipWith (fun x y => x * y) a b).sum

/-- Cosine similarity (`sklearn.metrics.pairwise.cosine_similarity` on one
pair): dot product over the product of Euclidean norms. -/
noncomputable def cosine_sim (a b : List ℚ) : ℝ :=
  ((dotQ a b : ℚ) : ℝ) / (Real.sqrt ((dotQ a a : ℚ) : ℝ) * Real.sqrt ((dotQ b b : ℚ) : ℝ))

/-! ### Smart batching (`GeminiClient` of the density-variant module) -/

/-- Python `str.strip()`: drop leading and trailing whitespace. -/
def trim_chars (l : List Char) : List Char :=
  ((l.dropWhile Char.isWhitespace).reverse.dropWhile Char.isWhitespace).reverse

/-- `GeminiClient._truncate_embed_contents`: truncate the title to
`max_content_length` characters and strip surrounding whitespace. -/
def truncate_embed_contents (maxContentLength : Nat) (a : SimpleArticle) : List Char :=
  trim_chars (a.title.take maxContentLength)

/-- `GeminiClient._estimate_token_count`: `len(content) // 4`. -/
def estimate_token_count (content : List Char) : Nat :=
  content.length / 4

/-- The loop body of `GeminiClient._create_smart_batches`: scan the articles,
closing the running batch whenever adding the next article would exceed the
token budget or the running batch already reached the maximum batch size.
The token budget is the local `max_tokens_per_batch` (18000 in the source)
and the batch-size limit is the configured `MAX_BATCH_SIZE`. -/
def create_smart_batches_go (maxBatchSize maxTokensPerBatch maxContentLength : Nat) :
    List SimpleArticle → List SimpleArticle → Nat → List (List SimpleArticle)
  | [], currentBatch, _ =>
      if currentBatch = [] then [] else [currentBatch]
  | article :: rest, currentBatch, currentTokenCount =>
      let est := estimate_token_count (truncate_embed_contents maxContentLength article)
      if maxTokensPerBatch < currentTokenCount + est ∨ maxBatchSize ≤ currentBatch.length then
        (if currentBatch = [] then [] else [currentBatch]) ++
          create_smart_batches_go maxBatchSize maxTokensPerBatch maxContentLength rest [article] est
      else
        create_smart_batches_go maxBatchSize maxTokensPerBatch maxContentLength rest
          (currentBatch ++ [article]) (currentTokenCount + est)

/-- `GeminiClient._create_smart_batches`. -/
def create_smart_batches (maxBatchSize maxTokensPerBatch maxContentLength : Nat)
    (articles : List SimpleArticle) : List (List SimpleArticle) :=
  create_smart_batches_go maxBatchSize maxTokensPerBatch maxContentLength articles [] 0

/-- The `max_tokens_per_batch` constant hardcoded in `_create_smart_batches`. -/
def MAX_TOKENS_PER_BATCH : Nat := 18000

/-- `GeminiClient.OUTPUT_DIMENSIONALITY`. -/
def OUTPUT_DIMENSIONALITY : Nat := 768

/-- The all-zero sentinel vector `[0.0] * 768`. -/
def dummy_embedding : List ℚ := List.replicate OUTPUT_DIMENSIONALITY 0

/-- Outcome of one call to the external embedding provider
(`client.models.embed_content`): either an ordered list of embedding vectors,
or an exception whose message may or may not contain the substring
`"token count"` (the only property of the message the Python code inspects). -/
inductive ProviderResult where
  | ok (embeddings : List (List ℚ))
  | err (tokenCountError : Bool)
  deriving DecidableEq

/-- The external embedding provider, as a function of the list of request
contents. -/
def Provider : Type := List (List Char) → ProviderResult

/-- `GeminiClient._get_embeddings_individually`: call the provider once per
article; an article whose call fails or returns no embedding gets the
all-zero sentinel of dimensionality 768. -/
def get_embeddings_individually (provider : Provider) (maxContentLength : Nat)
    (articles : List SimpleArticle) : List (List ℚ) :=
  articles.map (fun article =>
    match provider [truncate_embed_contents maxContentLength article] with
    | .ok (e :: _) => e
    | .ok [] => dummy_embedding
    | .err _ => dummy_embedding)

/-- `GeminiClient._get_embeddings_batch`: one provider call for the whole
batch; if it fails with an error message containing `"token count"` and the
batch has more than one article, fall back to individual calls; any other
failure is re-raised (modelled as `Except.error`). -/
def get_embeddings_batch (provider : Provider) (maxContentLength : Nat)
    (articles : List SimpleArticle) : Except Bool (List (List ℚ)) :=
  if articles = [] then .ok []
  else
    match provider (articles.map (truncate_embed_contents maxContentLength)) with
    | .ok embs => .ok embs
    | .err tokenCountError =>
        if tokenCountError = true ∧ 1 < articles.length then
          .ok (get_embeddings_individually provider maxContentLength articles)
        else
          .error tokenCountError

/-- Assign embeddings positionally to the articles of a batch
(`for article, embedding in zip(batch, embeddings)`). -/
def assign_embeddings (batch : List SimpleArticle) (embs : List (List ℚ)) :
    List SimpleArticle :=
  (batch.zip embs).map (fun p => { p.1 with embedding_vector := some p.2 })

/-- The per-batch body of `GeminiClient.map_embeddings`: use the batch result
when it is non-empty and its length matches the batch, otherwise fall back
to individual calls; if the batch call raised, assign the 768-zero sentinel
to every article of the batch. -/
def process_batch (provider : Provider) (maxContentLength : Nat)
    (batch : List SimpleArticle) : List SimpleArticle :=
  match get_embeddings_batch provider maxContentLength batch with
  | .ok embs =>
      if embs ≠ [] ∧ embs.length = batch.length then assign_embeddings batch embs
      else assign_embeddings batch (get_embeddings_individually provider maxContentLength batch)
  | .error _ =>
      batch.map (fun a => { a with embedding_vector := some dummy_embedding })

/-- `GeminiClient.map_embeddings`: batch the articles and process each batch;
the in-place updates of the Python code are rendered functionally, the
output listing the articles batch by batch (the batches concatenate to the
input list). -/
def map_embeddings (provider : Provider) (maxBatchSize maxContentLength : Nat)
    (articles : List SimpleArticle) : List SimpleArticle :=
  if articles = [] then articles
  else
    ((create_smart_batches maxBatchSize MAX_TOKENS_PER_BATCH maxContentLength articles).map
      (process_batch provider maxContentLength)).flatten

/-! ### Threshold-greedy clustering (`ClusterClient` of `src/src`) -/

/-- The validity filter of the threshold-greedy variant: Python truthiness of
`article.embedding_vector` — present and non-empty (all-zero vectors pass). -/
def emb_truthy (a : SimpleArticle) : Bool :=
  match a.embedding_vector with
  | some l => !l.isEmpty
  | none => false

/-- The inner neighbor scan of the greedy `cluster_articles`: every index
`j ≠ i` whose similarity to the anchor `i` reaches the threshold — whether
or not `j` was already assigned to an earlier cluster. -/
def similar_indices (sim : Nat → Nat → ℚ) (threshold : ℚ) (n i : Nat) : List Nat :=
  (List.range n).filter (fun j => decide (j ≠ i) && decide (threshold ≤ sim i j))

/-- The scan loop of the greedy `cluster_articles`: visit indices in order,
skip indices already used, and form a cluster from the anchor and its
neighbors; an anchor with no neighbor forms a singleton. -/
def greedy_loop (sim : Nat → Nat → ℚ) (threshold : ℚ) (n : Nat) :
    List Nat → List Nat → List (List Nat)
  | [], _ => []
  | i :: rest, used =>
      if i ∈ used then greedy_loop sim threshold n rest used
      else if similar_indices sim threshold n i = [] then
        [i] :: greedy_loop sim threshold n rest (i :: used)
      else
        (i :: similar_indices sim threshold n i) ::
          greedy_loop sim threshold n rest (i :: (similar_indices sim threshold n i ++ used))

/-- `valid_articles[j]` (index into the filtered list). -/
def article_of (valid : List SimpleArticle) (j : Nat) : SimpleArticle :=
  valid.getD j default

/-- One entry of the pairwise similarity matrix
`cosine_similarity(vectors)` over the valid articles' vectors. -/
def pair_sim (cosine : List ℚ → List ℚ → ℚ) (valid : List SimpleArticle)
    (i j : Nat) : ℚ :=
  cosine ((article_of valid i).embedding_vector.getD [])
    ((article_of valid j).embedding_vector.getD [])

/-- `ClusterClient.cluster_articles` of the threshold-greedy module
(`src/src/clustering_articles/main.py`): filter articles by truthiness of
their embedding, build the pairwise similarity matrix with the external
`cosine` routine, and run the greedy scan.  `cosine` abstracts
`sklearn.metrics.pairwise.cosine_similarity`. -/
def cluster_articles_greedy (cosine : List ℚ → List ℚ → ℚ) (threshold : ℚ)
    (articles : List SimpleArticle) : List (List SimpleArticle) :=
  if articles = [] then []
  else if articles.filter emb_truthy = [] then []
  else
    (greedy_loop (pair_sim cosine (articles.filter emb_truthy)) threshold
        (articles.filter emb_truthy).length
        (List.range (articles.filter emb_truthy).length) []).map
      (fun c => c.map (article_of (articles.filter emb_truthy)))

/-! ### Density-based clustering (`ClusterClient` of the terraform module) -/

/-- The validity filter of the density variant:
`article.embedding_vector and sum(article.embedding_vector) != 0` —
present, non-empty, and with non-zero entry sum (excludes the all-zero
sentinel). -/
def emb_valid_density (a : SimpleArticle) : Bool :=
  match a.embedding_vector with
  | some l => !l.isEmpty && decide (l.sum ≠ 0)
  | none => false

/-- `clusters[label].append(article)` on an insertion-ordered association
list (Python `defaultdict(list)`). -/
def append_to_label : List (Int × List SimpleArticle) → Int → SimpleArticle →
    List (Int × List SimpleArticle)
  | [], label, a => [(label, [a])]
  | (l, c) :: rest, label, a =>
      if l = label then (l, c ++ [a]) :: rest
      else (l, c) :: append_to_label rest label a

/-- The label-grouping loop of the density `cluster_articles`: skip noise
labels (-1), append every other article to its label's cluster. -/
def group_by_label : List (SimpleArticle × Int) → List (Int × List SimpleArticle) →
    List (Int × List SimpleArticle)
  | [], acc => acc
  | (a, label) :: rest, acc =>
      if label = -1 then group_by_label rest acc
      else group_by_label rest (append_to_label acc label a)

/-- `ClusterClient.cluster_articles` of the density-based module
(`src/terraform/src/clustering_articles/main.py`): filter by the sentinel-aware
validity check and group the valid articles by the labels hdbscan assigned
(one label per valid article, in order; the L2 row normalization feeds only
hdbscan, which is abstracted by `labels`, and does not affect membership). -/
def cluster_articles_density (labels : List Int) (articles : List SimpleArticle) :
    List (List SimpleArticle) :=
  if articles = [] then []
  else if articles.filter emb_valid_density = [] then []
  else (group_by_label ((articles.filter emb_valid_density).zip labels) []).map Prod.snd

/-! ### `chunked` (from `calculate_user_embeddings`) -/

/-- The slicing loop of `chunked` for a positive chunk size `m + 1`:
`[list(seq[i:i+n]) for i in range(0, len(seq), n)]`. -/
def chunked_go (m : Nat) : List α → List (List α)
  | [] => []
  | a :: rest => (a :: List.take m rest) :: chunked_go m (List.drop m rest)
  termination_by l => l.length
  decreasing_by
    simp only [List.length_drop, List.length_cons]
    omega

/-- `chunked(seq, n)`: raises `ValueError` when `n <= 0`, otherwise splits
the sequence into chunks of size `n`. -/
def chunked (seq : List α) (n : Int) : Except String (List (List α)) :=
  if n ≤ 0 then .error "Chunk size n must be > 0"
  else .ok (chunked_go (n.toNat - 1) seq)

/-! ### User-embedding aggregation -/

/-- `Config.LIKE_WEIGHT`. -/
def LIKE_WEIGHT : ℚ := 3

/-- `Config.SCRAP_WEIGHT`. -/
def SCRAP_WEIGHT : ℚ := 5

/-- `Config.DETAIL_VIEW_WEIGHT`. -/
def DETAIL_VIEW_WEIGHT : ℚ := 2

/-- Python `assoc.get(k)` on an insertion-ordered association list. -/
def dict_get {β : Type} (k : Int) : List (Int × β) → Option β
  | [] => none
  | (k', v) :: rest => if k = k' then some v else dict_get k rest

/-- One iteration of the interaction loop of
`UserEmbeddingGenerator._compute_user_embedding`: skip articles without an
embedding; the weight is the action base weight times the user's preference
for the article's section (1.0 when the section or the preference is
unknown). -/
def interaction_step (article_embeddings : Int → Option (List ℚ))
    (article_sections : Int → Option Int) (user_section_preferences : Int → Option ℚ)
    (base_weight : ℚ) (acc : List (List ℚ) × ℚ) (article_id : Int) :
    List (List ℚ) × ℚ :=
  match article_embeddings article_id with
  | none => acc
  | some emb =>
      let section_pref : ℚ :=
        match article_sections article_id with
        | some sid =>
            match user_section_preferences sid with
            | some p => p
            | none => 1
        | none => 1
      let final_weight := base_weight * section_pref
      (acc.1 ++ [vec_scale final_weight emb], acc.2 + final_weight)

/-- The accumulation phase of `_compute_user_embedding`: fold the weighted
embeddings and the total weight over likes (weight 3), scraps (weight 5) and
detail views (weight 2), in that order. -/
def accumulate_interactions (liked scraped viewed : List Int)
    (article_embeddings : Int → Option (List ℚ)) (article_sections : Int → Option Int)
    (user_section_preferences : Int → Option ℚ) : List (List ℚ) × ℚ :=
  [(liked, LIKE_WEIGHT), (scraped, SCRAP_WEIGHT), (viewed, DETAIL_VIEW_WEIGHT)].foldl
    (fun acc p =>
      p.1.foldl
        (interaction_step article_embeddings article_sections user_section_preferences p.2)
        acc)
    ([], 0)

/-- `UserEmbeddingGenerator._compute_user_embedding`: `None` when no weighted
embeddings accumulated or the total weight is exactly zero, otherwise the
weighted sum divided by the total weight. -/
def compute_user_embedding (liked scraped viewed : List Int)
    (article_embeddings : Int → Option (List ℚ)) (article_sections : Int → Option Int)
    (user_section_preferences : Int → Option ℚ) : Option (List ℚ) :=
  let acc := accumulate_interactions liked scraped viewed article_embeddings
    article_sections user_section_preferences
  if acc.1 = [] ∨ acc.2 = 0 then none
  else some (vec_div (vec_sum acc.1) acc.2)

/-- One iteration of the loop of
`UserEmbeddingGenerator._section_preference_embedding`: skip sections without
a mean vector or with non-positive preference. -/
def section_pref_step (section_means : Int → Option (List ℚ))
    (acc : List (List ℚ) × ℚ) (p : Int × ℚ) : List (List ℚ) × ℚ :=
  match section_means p.1 with
  | none => acc
  | some emb =>
      if p.2 ≤ 0 then acc
      else (acc.1 ++ [vec_scale p.2 emb], acc.2 + p.2)

/-- The accumulation phase of `_section_preference_embedding`. -/
def accumulate_section_preferences (user_section_preferences : List (Int × ℚ))
    (section_means : Int → Option (List ℚ)) : List (List ℚ) × ℚ :=
  user_section_preferences.foldl (section_pref_step section_means) ([], 0)

/-- `UserEmbeddingGenerator._section_preference_embedding`: `None` when
nothing accumulated or the total weight is non-positive, otherwise the
weighted sum divided by the total weight. -/
def section_preference_embedding (user_section_preferences : List (Int × ℚ))
    (section_means : Int → Option (List ℚ)) : Option (List ℚ) :=
  let acc := accumulate_section_preferences user_section_preferences section_means
  if acc.1 = [] ∨ acc.2 ≤ 0 then none
  else some (vec_div (vec_sum acc.1) acc.2)

/-! ### The data snapshot both user-embedding generators read -/

/-- The stores both generators consult: like/scrap/detail-view rows as
(user id, article id) pairs, the fetched article embeddings and sections,
the per-user section-preference rows, the precomputed section-mean table the
single-user module reads, and the per-section sampled article ids the bulk
module reads. -/
structure Store where
  likeRows : List (Int × Int)
  scrapRows : List (Int × Int)
  viewRows : List (Int × Int)
  articleEmbeddings : Int → Option (List ℚ)
  articleSections : Int → Option Int
  prefRows : Int → List (Int × ℚ)
  sectionMeansTable : List (Int × List ℚ)
  sectionSamples : List (Int × List Int)

/-- Article ids of the rows of one user, in row order (both the per-user SQL
query of the single-user module and the grouped dictionary of the bulk
module produce this list). -/
def rows_for (rows : List (Int × Int)) (u : Int) : List Int :=
  (rows.filter (fun r => decide (r.1 = u))).map Prod.snd

/-- The user's liked article ids. -/
def likes_of (s : Store) (u : Int) : List Int := rows_for s.likeRows u

/-- The user's scrapped article ids. -/
def scraps_of (s : Store) (u : Int) : List Int := rows_for s.scrapRows u

/-- The user's detail-viewed article ids. -/
def views_of (s : Store) (u : Int) : List Int := rows_for s.viewRows u

/-- Lookup function over the user's section-preference rows. -/
def pref_lookup (s : Store) (u : Int) : Int → Option ℚ :=
  fun sid => dict_get sid (s.prefRows u)

/-- Lookup into the precomputed section-mean table
(`BigQueryClient.get_section_avg_embeddings`). -/
def table_means_lookup (s : Store) : Int → Option (List ℚ) :=
  fun sid => dict_get sid s.sectionMeansTable

/-! ### Single-user generator (`recalculate_user_embeddings`) -/

/-- Step 4 of `generate_user_embedding`: the section-preference cold start
over the precomputed table, then the global mean of the table's section-mean
vectors, then `None`. -/
noncomputable def cold_path_single (s : Store) (u : Int) : Option (List ℝ) :=
  match section_preference_embedding (s.prefRows u) (table_means_lookup s) with
  | some cold => some (postprocess cold)
  | none =>
      if s.sectionMeansTable = [] then none
      else some (postprocess (mean_embedding (s.sectionMeansTable.map Prod.snd)))

/-- `UserEmbeddingGenerator.generate_user_embedding` of the single-user
module: interaction-weighted embedding when the user has interactions and it
is computable, otherwise the cold-start path; every produced vector is
post-processed. -/
noncomputable def generate_user_embedding (s : Store) (u : Int) : Option (List ℝ) :=
  if likes_of s u ++ scraps_of s u ++ views_of s u = [] then cold_path_single s u
  else
    match compute_user_embedding (likes_of s u) (scraps_of s u) (views_of s u)
        s.articleEmbeddings s.articleSections (pref_lookup s u) with
    | some emb => some (postprocess emb)
    | none => cold_path_single s u

/-! ### Bulk generator (`calculate_user_embeddings`) -/

/-- The users appearing in at least one interaction row (the key set of the
three per-user dictionaries of the bulk module), listed without
duplicates. -/
def interacted_users (s : Store) : List Int :=
  ((s.likeRows ++ s.scrapRows ++ s.viewRows).map Prod.fst).dedup

/-- `user_section_preferences.get(user_id, {})` where the batch was fetched
for `all_user_ids` only. -/
def bulk_prefs (s : Store) (allUsers : List Int) (u : Int) : List (Int × ℚ) :=
  if u ∈ allUsers then s.prefRows u else []

/-- All sampled article ids (`sample_article_ids`). -/
def sample_ids (s : Store) : List Int :=
  (s.sectionSamples.map Prod.snd).flatten

/-- `sample_embeddings`: the fetched (article id, embedding) rows for the
sampled ids; the BigQuery IN-query returns one row per distinct id. -/
def sample_embedding_rows (s : Store) : List (Int × List ℚ) :=
  (sample_ids s).dedup.filterMap
    (fun aid => (s.articleEmbeddings aid).map (fun e => (aid, e)))

/-- `aid in sample_embeddings` / `sample_embeddings[aid]`. -/
def sample_embedding_lookup (s : Store) : Int → Option (List ℚ) :=
  fun aid => dict_get aid (sample_embedding_rows s)

/-- `UserEmbeddingGenerator._calculate_section_means_sampled` as a lookup:
mean of the sampled embeddings of a section, absent when the section has no
sample with an embedding. -/
def derived_section_means (s : Store) : Int → Option (List ℚ) :=
  fun sid =>
    match dict_get sid s.sectionSamples with
    | none => none
    | some aids =>
        let embs := aids.filterMap (sample_embedding_lookup s)
        if embs = [] then none else some (mean_embedding embs)

/-- The bulk module's global-mean fallback: the mean of all fetched sample
embeddings (`self._mean_embedding(list(sample_embeddings.values()))`), absent
when no sample embedding was fetched. -/
def global_mean_bulk (s : Store) : Option (List ℚ) :=
  if sample_embedding_rows s = [] then none
  else some (mean_embedding ((sample_embedding_rows s).map Prod.snd))

/-- The `user_embeddings` dictionary, as a partial map. -/
def UserMap : Type := Int → Option (List ℝ)

/-- Insert a binding (`user_embeddings[user_id] = v`). -/
def map_insert (m : UserMap) (k : Int) (v : List ℝ) : UserMap :=
  fun k' => if k' = k then some v else m k'

/-- The empty dictionary. -/
def empty_map : UserMap := fun _ => none

/-- The interaction-based embedding the bulk module computes for one user
(its call to `_compute_user_embedding` with the batched lookups). -/
def bulk_compute (s : Store) (allUsers : List Int) (u : Int) : Option (List ℚ) :=
  compute_user_embedding (likes_of s u) (scraps_of s u) (views_of s u)
    s.articleEmbeddings s.articleSections (fun sid => dict_get sid (bulk_prefs s allUsers u))

/-- Step 4 of `generate_all_user_embeddings`: one interacted user's visit. -/
noncomputable def interaction_step_user (s : Store) (allUsers : List Int)
    (m : UserMap) (u : Int) : UserMap :=
  match bulk_compute s allUsers u with
  | some emb => map_insert m u (postprocess emb)
  | none => m

/-- Step 4 of `generate_all_user_embeddings`: interaction-based embeddings
for every interacted user. -/
noncomputable def interaction_pass (s : Store) (allUsers : List Int) : UserMap :=
  (interacted_users s).foldl (interaction_step_user s allUsers) empty_map

/-- The value step 6 of the bulk module would assign to a user without an
interaction-based embedding: the section-preference embedding over the
sampled section means, else the sampled global mean, else nothing; the
produced vector is post-processed. -/
noncomputable def cold_value_bulk (s : Store) (allUsers : List Int) (u : Int) :
    Option (List ℝ) :=
  match section_preference_embedding (bulk_prefs s allUsers u) (derived_section_means s) with
  | some cold => some (postprocess cold)
  | none =>
      match global_mean_bulk s with
      | some g => some (postprocess g)
      | none => none

/-- Step 6 of `generate_all_user_embeddings`: one user's visit of the
cold-start loop (`if user_id in user_embeddings: continue`). -/
noncomputable def cold_step_user (s : Store) (allUsers : List Int)
    (m : UserMap) (u : Int) : UserMap :=
  if (m u).isSome then m
  else
    match cold_value_bulk s allUsers u with
    | some v => map_insert m u v
    | none => m

/-- `UserEmbeddingGenerator.generate_all_user_embeddings` of the bulk module:
interaction-based embeddings for interacted users, then the cold-start loop
over all users. -/
noncomputable def generate_all_user_embeddings (s : Store) (allUsers : List Int) : UserMap :=
  allUsers.foldl (cold_step_user s allUsers) (interaction_pass s allUsers)

/-! ## Theorems -/

/-! ### C10: `chunked` -/

theorem chunked_go_flatten {α : Type} (m : Nat) (seq : List α) :
    (chunked_go m seq).flatten = seq := by
  induction seq using chunked_go.induct m with
  | case1 => simp [chunked_go]
  | case2 a rest ih =>
    rw [chunked_go, List.flatten_cons, ih]
    simp [List.take_append_drop]

theorem chunked_go_chunks {α : Type} (m : Nat) (seq : List α) :
    ∀ c ∈ chunked_go m seq, c ≠ [] ∧ c.length ≤ m + 1 := by
  induction seq using chunked_go.induct m with
  | case1 => simp [chunked_go]
  | case2 a rest ih =>
    intro c hc
    rw [chunked_go] at hc
    rcases List.mem_cons.mp hc with rfl | hc
    · refine ⟨by simp, ?_⟩
      simp only [List.length_cons, List.length_take]
      omega
    · exact ih c hc

/-- C10: `chunked(seq, n)` raises `ValueError` exactly when `n ≤ 0`; for
`n > 0` it returns chunks whose in-order concatenation is the input, each
chunk non-empty and of length at most `n`. -/
theorem chunked_spec {α : Type} :
    (∀ (seq : List α) (n : Int), n ≤ 0 →
      chunked seq n = .error "Chunk size n must be > 0") ∧
    (∀ (seq : List α) (n : Int), 0 < n →
      ∃ chunks, chunked seq n = .ok chunks ∧ chunks.flatten = seq ∧
        ∀ c ∈ chunks, c ≠ [] ∧ (c.length : Int) ≤ n) := by
  constructor
  · intro seq n hn
    simp [chunked, hn]
  · intro seq n hn
    refine ⟨chunked_go (n.toNat - 1) seq, ?_, chunked_go_flatten _ _, ?_⟩
    · simp [chunked, not_le.mpr hn]
    · intro c hc
      obtain ⟨h1, h2⟩ := chunked_go_chunks (n.toNat - 1) seq c hc
      exact ⟨h1, by omega⟩

/-- Witness for `chunked_spec` at a concrete sequence and chunk sizes. -/
theorem chunked_spec_witness :
    chunked ([1, 2, 3] : List Nat) (-1) = .error "Chunk size n must be > 0" ∧
    ∃ chunks, chunked ([1, 2, 3] : List Nat) 2 = .ok chunks ∧
      chunks.flatten = [1, 2, 3] ∧ ∀ c ∈ chunks, c ≠ [] ∧ (c.length : Int) ≤ 2 :=
  ⟨(chunked_spec (α := Nat)).1 [1, 2, 3] (-1) (by decide),
   (chunked_spec (α := Nat)).2 [1, 2, 3] 2 (by decide)⟩

/-! ### C4: smart batches concatenate to the input -/

theorem create_smart_batches_go_flatten (B T L : Nat) :
    ∀ (rest cur : List SimpleArticle) (tok : Nat),
      (create_smart_batches_go B T L rest cur tok).flatten = cur ++ rest := by
  intro rest
  induction rest with
  | nil =>
    intro cur tok
    rw [create_smart_batches_go]
    split
    · simp_all
    · simp
  | cons a rest ih =>
    intro cur tok
    rw [create_smart_batches_go]
    split
    · rw [List.flatten_append, ih [a] _]
      split
      · simp_all
      · simp
    · rw [ih (cur ++ [a]) _]
      simp

/-- C4: concatenating the batches of `_create_smart_batches` in order yields
exactly the original article list, for every positive item-count limit and
token budget. -/
theorem smart_batches_flatten_eq (maxBatchSize maxTokensPerBatch maxContentLength : Nat)
    (articles : List SimpleArticle)
    (hB : 0 < maxBatchSize) (hT : 0 < maxTokensPerBatch) :
    (create_smart_batches maxBatchSize maxTokensPerBatch maxContentLength articles).flatten
      = articles := by
  rw [create_smart_batches]
  simpa using create_smart_batches_go_flatten maxBatchSize maxTokensPerBatch
    maxContentLength articles [] 0

/-- Witness for `smart_batches_flatten_eq` at concrete articles/limits. -/
theorem smart_batches_flatten_eq_witness :
    (create_smart_batches 1 1 5
        [⟨1, ['a', 'a', 'a', 'a'], [], none⟩, ⟨2, ['b', 'b'], [], none⟩]).flatten
      = [⟨1, ['a', 'a', 'a', 'a'], [], none⟩, ⟨2, ['b', 'b'], [], none⟩] :=
  smart_batches_flatten_eq 1 1 5 _ (by decide) (by decide)

/-! ### C7: batches versus the two limits -/

/-- The estimated token count of a batch (sum of `len(text) // 4` over the
batch's truncated contents). -/
def batch_token_sum (maxContentLength : Nat) (batch : List SimpleArticle) : Nat :=
  (batch.map (fun a => estimate_token_count (truncate_embed_contents maxContentLength a))).sum

theorem create_smart_batches_go_limits (B T L : Nat) (hB : 1 ≤ B) :
    ∀ (rest cur : List SimpleArticle) (tok : Nat),
      tok = batch_token_sum L cur →
      cur.length ≤ B →
      (2 ≤ cur.length → tok ≤ T) →
      ∀ b ∈ create_smart_batches_go B T L rest cur tok,
        b.length ≤ B ∧ (2 ≤ b.length → batch_token_sum L b ≤ T) := by
  intro rest
  induction rest with
  | nil =>
    intro cur tok htok hlen htok2 b hb
    rw [create_smart_batches_go] at hb
    split at hb
    · simp at hb
    · rw [List.mem_singleton] at hb
      subst hb
      exact ⟨hlen, fun h2 => htok ▸ htok2 h2⟩
  | cons a rest ih =>
    intro cur tok htok hlen htok2 b hb
    rw [create_smart_batches_go] at hb
    split at hb
    · rw [List.mem_append] at hb
      rcases hb with hb | hb
      · split at hb
        · simp at hb
        · rw [List.mem_singleton] at hb
          subst hb
          exact ⟨hlen, fun h2 => htok ▸ htok2 h2⟩
      · refine ih [a] _ ?_ ?_ ?_ b hb
        · simp [batch_token_sum]
        · simpa using hB
        · intro h2
          simp at h2
    · rename_i hcond
      rw [not_or, not_lt, not_le] at hcond
      refine ih (cur ++ [a]) _ ?_ ?_ ?_ b hb
      · simp [batch_token_sum, htok]
      · simp only [List.length_append, List.length_cons, List.length_nil]
        omega
      · intro _
        exact hcond.1

/-- C7 amended: with a batch-size limit of at least 1, every produced batch
has at most `maxBatchSize` articles, and every batch with at least two
articles respects the token budget; a batch consisting of a single article
may exceed the budget (see `oversized_single_batch_exceeds_budget`). -/
theorem smart_batches_respect_limits (maxBatchSize maxTokensPerBatch maxContentLength : Nat)
    (articles : List SimpleArticle) (hB : 1 ≤ maxBatchSize) :
    ∀ b ∈ create_smart_batches maxBatchSize maxTokensPerBatch maxContentLength articles,
      b.length ≤ maxBatchSize ∧
      (2 ≤ b.length → batch_token_sum maxContentLength b ≤ maxTokensPerBatch) := by
  rw [create_smart_batches]
  exact create_smart_batches_go_limits maxBatchSize maxTokensPerBatch maxContentLength hB
    articles [] 0 (by simp [batch_token_sum]) (by simp) (by simp)

/-- Witness for `smart_batches_respect_limits` at concrete articles/limits. -/
theorem smart_batches_respect_limits_witness :
    ([⟨1, ['a', 'a', 'a', 'a'], [], none⟩] : List SimpleArticle).length ≤ 2 ∧
    (2 ≤ ([⟨1, ['a', 'a', 'a', 'a'], [], none⟩] : List SimpleArticle).length →
      batch_token_sum 5 [⟨1, ['a', 'a', 'a', 'a'], [], none⟩] ≤ 100) :=
  smart_batches_respect_limits 2 100 5 [⟨1, ['a', 'a', 'a', 'a'], [], none⟩] (by decide)
    [⟨1, ['a', 'a', 'a', 'a'], [], none⟩] (by decide)

/-- C7 counterexample: with token budget 1, a single article whose estimated
token count is 2 is emitted as a batch whose token sum exceeds the budget. -/
theorem oversized_single_batch_exceeds_budget :
    create_smart_batches 2 1 100 [⟨1, List.replicate 8 'a', [], none⟩]
      = [[⟨1, List.replicate 8 'a', [], none⟩]] ∧
    1 < batch_token_sum 100 [⟨1, List.replicate 8 'a', [], none⟩] := by
  decide

/-! ### C6: "no result" conditions of the weighted means -/

/-- C6 amended: `_compute_user_embedding` returns `None` when nothing was
accumulated or the accumulated weight is exactly zero, and
`_section_preference_embedding` returns `None` when nothing was accumulated
or the accumulated weight is non-positive; a strictly negative accumulated
weight makes `_compute_user_embedding` return a vector
(see `negative_total_weight_returns_vector`). -/
theorem weighted_mean_none_conditions :
    (∀ (liked scraped viewed : List Int) (ae : Int → Option (List ℚ))
        (asec : Int → Option Int) (prefs : Int → Option ℚ),
      (accumulate_interactions liked scraped viewed ae asec prefs).1 = [] ∨
        (accumulate_interactions liked scraped viewed ae asec prefs).2 = 0 →
      compute_user_embedding liked scraped viewed ae asec prefs = none) ∧
    (∀ (prefs : List (Int × ℚ)) (means : Int → Option (List ℚ)),
      (accumulate_section_preferences prefs means).1 = [] ∨
        (accumulate_section_preferences prefs means).2 ≤ 0 →
      section_preference_embedding prefs means = none) := by
  constructor
  · intro liked scraped viewed ae asec prefs h
    rw [compute_user_embedding, if_pos h]
  · intro prefs means h
    rw [section_preference_embedding, if_pos h]

/-- Witness for `weighted_mean_none_conditions` at concrete inputs. -/
theorem weighted_mean_none_conditions_witness :
    compute_user_embedding [] [] [] (fun _ => none) (fun _ => none) (fun _ => none) = none ∧
    section_preference_embedding [] (fun _ => none) = none :=
  ⟨weighted_mean_none_conditions.1 [] [] [] (fun _ => none) (fun _ => none) (fun _ => none)
      (Or.inl rfl),
   weighted_mean_none_conditions.2 [] (fun _ => none) (Or.inl rfl)⟩

/-- Article 1 has an embedding, belongs to section 7, and the user's
preference for section 7 is -1. -/
def ex6_embeddings : Int → Option (List ℚ) := fun aid => if aid = 1 then some [1, 0] else none

/-- Section of article 1. -/
def ex6_sections : Int → Option Int := fun aid => if aid = 1 then some 7 else none

/-- A negative stored preference for section 7. -/
def ex6_prefs : Int → Option ℚ := fun sid => if sid = 7 then some (-1) else none

/-- C6 counterexample: a single like with preference -1 accumulates total
weight -3 ≤ 0, yet `_compute_user_embedding` returns a vector, not `None`
(the code only tests `total_weight == 0`). -/
theorem negative_total_weight_returns_vector :
    (accumulate_interactions [1] [] [] ex6_embeddings ex6_sections ex6_prefs).2 ≤ 0 ∧
    compute_user_embedding [1] [] [] ex6_embeddings ex6_sections ex6_prefs = some [1, 0] := by
  norm_num [accumulate_interactions, compute_user_embedding, interaction_step,
    ex6_embeddings, ex6_sections, ex6_prefs, LIKE_WEIGHT, SCRAP_WEIGHT, DETAIL_VIEW_WEIGHT,
    vec_scale, vec_sum, vec_div]

/-! ### C3: embedding failure fallback -/

theorem mem_assign_embeddings (batch : List SimpleArticle) (embs : List (List ℚ))
    (a : SimpleArticle) (ha : a ∈ assign_embeddings batch embs) :
    ∃ l, a.embedding_vector = some l := by
  rw [assign_embeddings, List.mem_map] at ha
  obtain ⟨p, _, rfl⟩ := ha
  exact ⟨p.2, rfl⟩

/-- C3 amended: after `map_embeddings` every article of the output has some
embedding assigned, whatever the provider does; and the per-item retry is
performed when (and only in the code path where) the failed batch call
reports a token-count error and the batch has more than one item.  A batch
failure whose message does not mention the token count assigns the sentinel
to the whole batch without any individual retry
(see `batch_failure_no_individual_retry`). -/
theorem embedding_fallback_totality :
    (∀ (provider : Provider) (maxBatchSize maxContentLength : Nat)
        (articles : List SimpleArticle) (a : SimpleArticle),
      a ∈ map_embeddings provider maxBatchSize maxContentLength articles →
      ∃ l, a.embedding_vector = some l) ∧
    (∀ (provider : Provider) (maxContentLength : Nat) (batch : List SimpleArticle),
      1 < batch.length →
      provider (batch.map (truncate_embed_contents maxContentLength)) = .err true →
      get_embeddings_batch provider maxContentLength batch =
        .ok (get_embeddings_individually provider maxContentLength batch)) := by
  constructor
  · intro provider B L articles a ha
    rw [map_embeddings] at ha
    split at ha
    · simp_all
    · rw [List.mem_flatten] at ha
      obtain ⟨l, hl, hal⟩ := ha
      rw [List.mem_map] at hl
      obtain ⟨batch, _, rfl⟩ := hl
      rw [process_batch] at hal
      split at hal
      · split at hal
        · exact mem_assign_embeddings _ _ _ hal
        · exact mem_assign_embeddings _ _ _ hal
      · rw [List.mem_map] at hal
        obtain ⟨x, _, rfl⟩ := hal
        exact ⟨dummy_embedding, rfl⟩
  · intro provider L batch hlen hprov
    have hne : batch ≠ [] := by intro h; rw [h] at hlen; simp at hlen
    rw [get_embeddings_batch, if_neg hne, hprov]
    simp [hlen]

/-- A provider that fails every call with a non-token-count error. -/
def ex3_provider0 : Provider := fun _ => .err false

/-- A provider that succeeds on singleton requests and reports a token-count
error on larger ones. -/
def ex3_provider : Provider := fun contents =>
  if contents.length = 1 then .ok [[5]] else .err true

/-- A two-article batch. -/
def ex3_batch : List SimpleArticle := [⟨1, ['t'], [], none⟩, ⟨2, ['u'], [], none⟩]

/-- Witness for `embedding_fallback_totality` at concrete providers. -/
theorem embedding_fallback_totality_witness :
    (∃ l, (⟨1, ['t'], [], some dummy_embedding⟩ : SimpleArticle).embedding_vector = some l) ∧
    get_embeddings_batch ex3_provider 2000 ex3_batch
      = .ok (get_embeddings_individually ex3_provider 2000 ex3_batch) :=
  ⟨embedding_fallback_totality.1 ex3_provider0 20 2000 [⟨1, ['t'], [], none⟩]
      ⟨1, ['t'], [], some dummy_embedding⟩ (by decide),
   embedding_fallback_totality.2 ex3_provider 2000 ex3_batch (by decide) (by decide)⟩

/-- A provider whose batch call fails with an error that does not mention
the token count, while each individual call would succeed. -/
def cx3_provider : Provider := fun contents =>
  match contents with
  | [single] => if single = ['t', '1'] then .ok [[1, 1]] else .ok [[2, 2]]
  | _ => .err false

/-- First article of the failing batch. -/
def cx3_a1 : SimpleArticle := ⟨1, ['t', '1'], [], none⟩

/-- Second article of the failing batch. -/
def cx3_a2 : SimpleArticle := ⟨2, ['t', '2'], [], none⟩

/-- C3 counterexample: the two-article batch call fails with a
non-token-count error; the code assigns the 768-zero sentinel to both
articles without retrying them individually, although the individual call
for the first article succeeds with the non-sentinel vector [1, 1]. -/
theorem batch_failure_no_individual_retry :
    map_embeddings cx3_provider 20 2000 [cx3_a1, cx3_a2]
      = [⟨1, ['t', '1'], [], some dummy_embedding⟩,
         ⟨2, ['t', '2'], [], some dummy_embedding⟩] ∧
    cx3_provider [truncate_embed_contents 2000 cx3_a1] = .ok [[1, 1]] ∧
    dummy_embedding ≠ [1, 1] :=
  ⟨by decide, by decide, by decide⟩

/-! ### C1: structure of the greedy clustering -/

theorem similar_indices_lt (sim : Nat → Nat → ℚ) (t : ℚ) (n i j : Nat)
    (hj : j ∈ similar_indices sim t n i) : j < n := by
  rw [similar_indices, List.mem_filter] at hj
  exact List.mem_range.mp hj.1

theorem greedy_loop_clusters_ne_nil (sim : Nat → Nat → ℚ) (t : ℚ) (n : Nat) :
    ∀ (idxs used : List Nat), ∀ c ∈ greedy_loop sim t n idxs used, c ≠ [] := by
  intro idxs
  induction idxs with
  | nil => simp [greedy_loop]
  | cons i rest ih =>
    intro used c hc
    rw [greedy_loop] at hc
    split at hc
    · exact ih used c hc
    · split at hc
      · rcases List.mem_cons.mp hc with rfl | hc
        · simp
        · exact ih _ c hc
      · rcases List.mem_cons.mp hc with rfl | hc
        · simp
        · exact ih _ c hc

theorem greedy_loop_indices_lt (sim : Nat → Nat → ℚ) (t : ℚ) (n : Nat) :
    ∀ (idxs used : List Nat), (∀ i ∈ idxs, i < n) →
      ∀ c ∈ greedy_loop sim t n idxs used, ∀ j ∈ c, j < n := by
  intro idxs
  induction idxs with
  | nil => simp [greedy_loop]
  | cons i rest ih =>
    intro used hidx c hc j hj
    rw [greedy_loop] at hc
    split at hc
    · exact ih used (fun x hx => hidx x (List.mem_cons_of_mem _ hx)) c hc j hj
    · split at hc
      · rcases List.mem_cons.mp hc with rfl | hc
        · rw [List.mem_singleton] at hj
          subst hj
          exact hidx j (List.mem_cons_self _ _)
        · exact ih _ (fun x hx => hidx x (List.mem_cons_of_mem _ hx)) c hc j hj
      · rcases List.mem_cons.mp hc with rfl | hc
        · rcases List.mem_cons.mp hj with rfl | hj
          · exact hidx j (List.mem_cons_self _ _)
          · exact similar_indices_lt sim t n i j hj
        · exact ih _ (fun x hx => hidx x (List.mem_cons_of_mem _ hx)) c hc j hj

theorem greedy_loop_covers (sim : Nat → Nat → ℚ) (t : ℚ) (n : Nat) :
    ∀ (idxs used : List Nat) (j : Nat), j ∈ idxs →
      j ∈ used ∨ ∃ c ∈ greedy_loop sim t n idxs used, j ∈ c := by
  intro idxs
  induction idxs with
  | nil => simp
  | cons i rest ih =>
    intro used j hj
    rw [greedy_loop]
    split
    · rename_i hiu
      rcases List.mem_cons.mp hj with rfl | hj
      · exact Or.inl hiu
      · exact ih used j hj
    · split
      · rcases List.mem_cons.mp hj with rfl | hj
        · exact Or.inr ⟨[j], List.mem_cons_self _ _, List.mem_singleton_self j⟩
        · rcases ih (i :: used) j hj with h | ⟨c, hc, hjc⟩
          · rcases List.mem_cons.mp h with rfl | h
            · exact Or.inr ⟨[j], List.mem_cons_self _ _, List.mem_singleton_self j⟩
            · exact Or.inl h
          · exact Or.inr ⟨c, List.mem_cons_of_mem _ hc, hjc⟩
      · rcases List.mem_cons.mp hj with rfl | hj
        · exact Or.inr ⟨j :: similar_indices sim t n j, List.mem_cons_self _ _,
            List.mem_cons_self _ _⟩
        · rcases ih (i :: (similar_indices sim t n i ++ used)) j hj with h | ⟨c, hc, hjc⟩
          · rcases List.mem_cons.mp h with rfl | h
            · exact Or.inr ⟨j :: similar_indices sim t n j, List.mem_cons_self _ _,
                List.mem_cons_self _ _⟩
            · rcases List.mem_append.mp h with h | h
              · exact Or.inr ⟨i :: similar_indices sim t n i, List.mem_cons_self _ _,
                  List.mem_cons_of_mem _ h⟩
              · exact Or.inl h
          · exact Or.inr ⟨c, List.mem_cons_of_mem _ hc, hjc⟩

theorem greedy_loop_singleton (sim : Nat → Nat → ℚ) (t : ℚ) (n : Nat) :
    ∀ (idxs used : List Nat) (j : Nat), j ∈ idxs → j ∉ used →
      similar_indices sim t n j = [] →
      (∀ i ∈ idxs, j ∉ similar_indices sim t n i) →
      [j] ∈ greedy_loop sim t n idxs used := by
  intro idxs
  induction idxs with
  | nil => intro used j hj _ _ _; exact absurd hj (List.not_mem_nil j)
  | cons i rest ih =>
    intro used j hj hju hsj hall
    rw [greedy_loop]
    split
    · rename_i hiu
      rcases List.mem_cons.mp hj with rfl | hj'
      · exact absurd hiu hju
      · exact ih used j hj' hju hsj (fun i' hi' => hall i' (List.mem_cons_of_mem _ hi'))
    · split
      · rcases List.mem_cons.mp hj with rfl | hj'
        · exact List.mem_cons_self _ _
        · by_cases hji : j = i
          · subst hji
            exact List.mem_cons_self _ _
          · refine List.mem_cons_of_mem _ (ih (i :: used) j hj' ?_ hsj
              (fun i' hi' => hall i' (List.mem_cons_of_mem _ hi')))
            intro hmem
            rcases List.mem_cons.mp hmem with h | h
            · exact hji h
            · exact hju h
      · rename_i hsim
        have hji : j ≠ i := by
          intro h
          subst h
          exact hsim hsj
        rcases List.mem_cons.mp hj with h | hj'
        · exact absurd h hji
        · refine List.mem_cons_of_mem _
            (ih (i :: (similar_indices sim t n i ++ used)) j hj' ?_ hsj
              (fun i' hi' => hall i' (List.mem_cons_of_mem _ hi')))
          intro hmem
          rcases List.mem_cons.mp hmem with h | h
          · exact hji h
          · rcases List.mem_append.mp h with h | h
            · exact hall i (List.mem_cons_self _ _) h
            · exact hju h

/-- C1 amended: every article passing the validity filter appears in at
least one cluster of the greedy `cluster_articles`, and every produced
cluster is non-empty; an anchor with no article at similarity ≥ threshold
(in either direction of the similarity matrix, assigned or not) forms the
singleton cluster containing just itself; but the clusters need not be
disjoint, because an anchor also collects already-assigned neighbors (see
`greedy_overlap_counterexample`). -/
theorem greedy_cluster_coverage (cosine : List ℚ → List ℚ → ℚ) (threshold : ℚ)
    (articles : List SimpleArticle) :
    (∀ a ∈ articles.filter emb_truthy,
      ∃ c ∈ cluster_articles_greedy cosine threshold articles, a ∈ c) ∧
    (∀ c ∈ cluster_articles_greedy cosine threshold articles, c ≠ []) ∧
    (∀ j, j < (articles.filter emb_truthy).length →
      (∀ i, i < (articles.filter emb_truthy).length → i ≠ j →
        ¬(threshold ≤ pair_sim cosine (articles.filter emb_truthy) i j) ∧
        ¬(threshold ≤ pair_sim cosine (articles.filter emb_truthy) j i)) →
      [article_of (articles.filter emb_truthy) j] ∈
        cluster_articles_greedy cosine threshold articles) := by
  rw [cluster_articles_greedy]
  split
  · rename_i h
    rw [h]
    exact ⟨by simp, by simp, by simp⟩
  · split
    · rename_i h
      rw [h]
      exact ⟨by simp, by simp, by simp⟩
    · refine ⟨?_, ?_, ?_⟩
      · intro a ha
        obtain ⟨j, hjlt, hja⟩ := List.getElem_of_mem ha
        rcases greedy_loop_covers (pair_sim cosine (articles.filter emb_truthy)) threshold
            (articles.filter emb_truthy).length (List.range (articles.filter emb_truthy).length)
            [] j (List.mem_range.mpr hjlt) with h | ⟨c, hc, hjc⟩
        · exact absurd h (List.not_mem_nil j)
        · refine ⟨c.map (article_of (articles.filter emb_truthy)),
            List.mem_map_of_mem _ hc, ?_⟩
          have : article_of (articles.filter emb_truthy) j = a := by
            rw [article_of, List.getD_eq_getElem _ _ hjlt, hja]
          exact this ▸ List.mem_map_of_mem _ hjc
      · intro c hc
        rw [List.mem_map] at hc
        obtain ⟨ci, hci, rfl⟩ := hc
        have := greedy_loop_clusters_ne_nil (pair_sim cosine (articles.filter emb_truthy))
          threshold (articles.filter emb_truthy).length _ _ ci hci
        cases ci with
        | nil => exact absurd rfl this
        | cons x xs => simp
      · intro j hj hno
        have hsj : similar_indices (pair_sim cosine (articles.filter emb_truthy)) threshold
            (articles.filter emb_truthy).length j = [] := by
          rw [similar_indices, List.filter_eq_nil_iff]
          intro a ha
          rw [List.mem_range] at ha
          by_cases haj : a = j
          · subst haj
            simp
          · simp only [Bool.and_eq_true, decide_eq_true_eq, not_and]
            intro _
            exact (hno a ha haj).2
        have hnotmem : ∀ i ∈ List.range (articles.filter emb_truthy).length,
            j ∉ similar_indices (pair_sim cosine (articles.filter emb_truthy)) threshold
              (articles.filter emb_truthy).length i := by
          intro i hi hmem
          rw [similar_indices, List.mem_filter] at hmem
          simp only [Bool.and_eq_true, decide_eq_true_eq] at hmem
          have hij : i ≠ j := fun h => hmem.2.1 h.symm
          exact (hno i (List.mem_range.mp hi) hij).1 hmem.2.2
        have hmemloop := greedy_loop_singleton
          (pair_sim cosine (articles.filter emb_truthy)) threshold
          (articles.filter emb_truthy).length
          (List.range (articles.filter emb_truthy).length) [] j
          (List.mem_range.mpr hj) (List.not_mem_nil j) hsj hnotmem
        exact List.mem_map_of_mem
          (fun c => c.map (article_of (articles.filter emb_truthy))) hmemloop

/-- A single valid article for the coverage witness. -/
def w1_article : SimpleArticle := ⟨1, [], [], some [1]⟩

/-- Witness for `greedy_cluster_coverage` at a concrete input. -/
theorem greedy_cluster_coverage_witness :
    (∃ c ∈ cluster_articles_greedy (fun _ _ => 1) (1/2) [w1_article], w1_article ∈ c) ∧
    (∀ c ∈ cluster_articles_greedy (fun _ _ => 1) (1/2) [w1_article], c ≠ []) ∧
    [article_of ([w1_article].filter emb_truthy) 0] ∈
      cluster_articles_greedy (fun _ _ => 1) (1/2) [w1_article] :=
  ⟨(greedy_cluster_coverage (fun _ _ => 1) (1/2) [w1_article]).1 w1_article (by decide),
   (greedy_cluster_coverage (fun _ _ => 1) (1/2) [w1_article]).2.1,
   (greedy_cluster_coverage (fun _ _ => 1) (1/2) [w1_article]).2.2 0 (by decide)
     (fun i hi hij => absurd (Nat.lt_one_iff.mp hi) hij)⟩

/-- First article of the overlap counterexample, embedding (1, 0). -/
def g0 : SimpleArticle := ⟨1, [], [], some [1, 0]⟩

/-- Second article of the overlap counterexample, embedding (3, 4). -/
def g1 : SimpleArticle := ⟨2, [], [], some [3, 4]⟩

/-- Third article of the overlap counterexample, embedding (0, 1). -/
def g2 : SimpleArticle := ⟨3, [], [], some [0, 1]⟩

/-- The cosine similarities of the three embeddings above, as exact
rationals. -/
def cx1_cos (a b : List ℚ) : ℚ :=
  if a = b then 1
  else if (a = [1, 0] ∧ b = [3, 4]) ∨ (a = [3, 4] ∧ b = [1, 0]) then 3/5
  else if (a = [0, 1] ∧ b = [3, 4]) ∨ (a = [3, 4] ∧ b = [0, 1]) then 4/5
  else 0

/-- C1 counterexample: with threshold 3/5 over the cosine matrix of the
embeddings (1,0), (3,4), (0,1), the greedy `cluster_articles` puts the
middle article into two distinct clusters — anchor 0 collects it, and
anchor 2 collects it again although it is already assigned — refuting
"every article appears in exactly one cluster".  The last four conjuncts
check that `cx1_cos` agrees with the real cosine similarity on every pair
the scan consults. -/
theorem greedy_overlap_counterexample :
    cluster_articles_greedy cx1_cos (3/5) [g0, g1, g2] = [[g0, g1], [g2, g1]] ∧
    (cluster_articles_greedy cx1_cos (3/5) [g0, g1, g2]).countP
      (fun c => decide (g1 ∈ c)) = 2 ∧
    cosine_sim [1, 0] [3, 4] = ((3/5 : ℚ) : ℝ) ∧
    cosine_sim [1, 0] [0, 1] = ((0 : ℚ) : ℝ) ∧
    cosine_sim [0, 1] [3, 4] = ((4/5 : ℚ) : ℝ) ∧
    cosine_sim [0, 1] [1, 0] = ((0 : ℚ) : ℝ) := by
  have h1 : cluster_articles_greedy cx1_cos (3/5) [g0, g1, g2] = [[g0, g1], [g2, g1]] := by
    rw [cluster_articles_greedy,
      if_neg (show ¬([g0, g1, g2] = []) from by simp),
      if_neg (show ¬([g0, g1, g2].filter emb_truthy = []) from by decide)]
    norm_num [greedy_loop, similar_indices, pair_sim, article_of,
      emb_truthy, cx1_cos, g0, g1, g2, List.range_succ, List.filter_cons, List.filter_nil]
  have hsqrt25 : Real.sqrt 25 = 5 := by
    rw [show (25 : ℝ) = 5 ^ 2 by norm_num, Real.sqrt_sq (by norm_num : (0:ℝ) ≤ 5)]
  refine ⟨h1, by rw [h1]; decide, ?_, ?_, ?_, ?_⟩
  · rw [cosine_sim, show dotQ [1, 0] [3, 4] = 3 by norm_num [dotQ],
      show dotQ [(1 : ℚ), 0] [1, 0] = 1 by norm_num [dotQ],
      show dotQ [(3 : ℚ), 4] [3, 4] = 25 by norm_num [dotQ]]
    push_cast
    rw [Real.sqrt_one, hsqrt25]
    norm_num
  · rw [cosine_sim, show dotQ [1, 0] [0, 1] = 0 by norm_num [dotQ]]
    push_cast
    norm_num
  · rw [cosine_sim, show dotQ [0, 1] [3, 4] = 4 by norm_num [dotQ],
      show dotQ [(0 : ℚ), 1] [0, 1] = 1 by norm_num [dotQ],
      show dotQ [(3 : ℚ), 4] [3, 4] = 25 by norm_num [dotQ]]
    push_cast
    rw [Real.sqrt_one, hsqrt25]
    norm_num
  · rw [cosine_sim, show dotQ [0, 1] [1, 0] = 0 by norm_num [dotQ]]
    push_cast
    norm_num

/-! ### C2: sentinel filtering in the two clustering variants -/

theorem emb_truthy_iff (a : SimpleArticle) :
    emb_truthy a = true ↔ ∃ l, a.embedding_vector = some l ∧ l ≠ [] := by
  rcases h : a.embedding_vector with _ | l <;> simp [emb_truthy, h]

theorem emb_valid_density_iff (a : SimpleArticle) :
    emb_valid_density a = true ↔
      ∃ l, a.embedding_vector = some l ∧ l ≠ [] ∧ l.sum ≠ 0 := by
  rcases h : a.embedding_vector with _ | l <;> simp [emb_valid_density, h]

theorem mem_append_to_label :
    ∀ (acc : List (Int × List SimpleArticle)) (lab : Int) (a : SimpleArticle)
      (p : Int × List SimpleArticle) (x : SimpleArticle),
      p ∈ append_to_label acc lab a → x ∈ p.2 → (∃ q ∈ acc, x ∈ q.2) ∨ x = a := by
  intro acc
  induction acc with
  | nil =>
    intro lab a p x hp hx
    rw [append_to_label, List.mem_singleton] at hp
    subst hp
    right
    simpa using hx
  | cons q rest ih =>
    intro lab a p x hp hx
    obtain ⟨l, c⟩ := q
    rw [append_to_label] at hp
    split at hp
    · rcases List.mem_cons.mp hp with rfl | hp
      · rcases List.mem_append.mp hx with hx | hx
        · exact Or.inl ⟨(l, c), List.mem_cons_self _ _, hx⟩
        · right; simpa using hx
      · exact Or.inl ⟨p, List.mem_cons_of_mem _ hp, hx⟩
    · rcases List.mem_cons.mp hp with rfl | hp
      · exact Or.inl ⟨(l, c), List.mem_cons_self _ _, hx⟩
      · rcases ih lab a p x hp hx with ⟨q', hq', hxq'⟩ | h
        · exact Or.inl ⟨q', List.mem_cons_of_mem _ hq', hxq'⟩
        · exact Or.inr h

theorem mem_group_by_label :
    ∀ (pairs : List (SimpleArticle × Int)) (acc : List (Int × List SimpleArticle))
      (p : Int × List SimpleArticle) (x : SimpleArticle),
      p ∈ group_by_label pairs acc → x ∈ p.2 →
      (∃ q ∈ acc, x ∈ q.2) ∨ ∃ lab, (x, lab) ∈ pairs := by
  intro pairs
  induction pairs with
  | nil =>
    intro acc p x hp hx
    rw [group_by_label] at hp
    exact Or.inl ⟨p, hp, hx⟩
  | cons pr rest ih =>
    intro acc p x hp hx
    obtain ⟨a, lab⟩ := pr
    rw [group_by_label] at hp
    split at hp
    · rcases ih acc p x hp hx with h | ⟨lab', h⟩
      · exact Or.inl h
      · exact Or.inr ⟨lab', List.mem_cons_of_mem _ h⟩
    · rcases ih (append_to_label acc lab a) p x hp hx with ⟨q, hq, hxq⟩ | ⟨lab', h⟩
      · rcases mem_append_to_label acc lab a q x hq hxq with h | rfl
        · exact Or.inl h
        · exact Or.inr ⟨lab, List.mem_cons_self _ _⟩
      · exact Or.inr ⟨lab', List.mem_cons_of_mem _ h⟩

/-- C2 amended: in the density variant every article of the output has a
present, non-empty embedding with non-zero sum (so the all-zero sentinel is
excluded); in the threshold-greedy variant every article of the output has a
present, non-empty embedding, but the all-zero sentinel passes its filter
and reaches the output (see `zero_sentinel_in_greedy_output`). -/
theorem sentinel_filtering_by_variant :
    (∀ (labels : List Int) (articles : List SimpleArticle)
        (c : List SimpleArticle) (a : SimpleArticle),
      c ∈ cluster_articles_density labels articles → a ∈ c →
      ∃ l, a.embedding_vector = some l ∧ l ≠ [] ∧ l.sum ≠ 0) ∧
    (∀ (cosine : List ℚ → List ℚ → ℚ) (threshold : ℚ) (articles : List SimpleArticle)
        (c : List SimpleArticle) (a : SimpleArticle),
      c ∈ cluster_articles_greedy cosine threshold articles → a ∈ c →
      ∃ l, a.embedding_vector = some l ∧ l ≠ []) := by
  constructor
  · intro labels articles c a hc ha
    rw [cluster_articles_density] at hc
    split at hc
    · simp at hc
    · split at hc
      · simp at hc
      · rw [List.mem_map] at hc
        obtain ⟨p, hp, rfl⟩ := hc
        rcases mem_group_by_label _ [] p a hp ha with ⟨q, hq, _⟩ | ⟨lab, hlab⟩
        · simp at hq
        · have hmem := (List.of_mem_zip hlab).1
          rw [List.mem_filter] at hmem
          exact (emb_valid_density_iff a).mp hmem.2
  · intro cosine threshold articles c a hc ha
    rw [cluster_articles_greedy] at hc
    split at hc
    · simp at hc
    · split at hc
      · simp at hc
      · rw [List.mem_map] at hc
        obtain ⟨ci, hci, rfl⟩ := hc
        rw [List.mem_map] at ha
        obtain ⟨j, hj, rfl⟩ := ha
        have hjn : j < (articles.filter emb_truthy).length :=
          greedy_loop_indices_lt _ _ _ _ _ (fun i hi => List.mem_range.mp hi) ci hci j hj
        have hmem : article_of (articles.filter emb_truthy) j ∈ articles.filter emb_truthy := by
          rw [article_of, List.getD_eq_getElem _ _ hjn]
          exact List.getElem_mem hjn
        rw [List.mem_filter] at hmem
        exact (emb_truthy_iff _).mp hmem.2

/-- A valid article for the density-side witness. -/
def w2_density : SimpleArticle := ⟨1, [], [], some [2]⟩

/-- Witness for `sentinel_filtering_by_variant` at concrete inputs. -/
theorem sentinel_filtering_by_variant_witness :
    (∃ l, w2_density.embedding_vector = some l ∧ l ≠ [] ∧ l.sum ≠ 0) ∧
    (∃ l, w1_article.embedding_vector = some l ∧ l ≠ []) :=
  ⟨sentinel_filtering_by_variant.1 [0] [w2_density] [w2_density] w2_density
      (by simp [cluster_articles_density, emb_valid_density, w2_density,
        group_by_label, append_to_label])
      (by simp),
   sentinel_filtering_by_variant.2 (fun _ _ => 1) (1/2) [w1_article] [w1_article] w1_article
      (by decide) (by simp)⟩

/-- The article with the all-zero sentinel embedding. -/
def cx2_article : SimpleArticle := ⟨1, [], [], some [0, 0]⟩

/-- C2 counterexample: in the threshold-greedy variant an article whose
embedding is the (non-empty) all-zero sentinel passes the truthiness filter
and appears in the output as a singleton cluster — its identifier is id 1
of the only output cluster. -/
theorem zero_sentinel_in_greedy_output :
    cluster_articles_greedy (fun _ _ => 0) (9/10) [cx2_article] = [[cx2_article]] ∧
    cx2_article.embedding_vector = some [0, 0] ∧ ([0, 0] : List ℚ).sum = 0 ∧
    ((cluster_articles_greedy (fun _ _ => 0) (9/10) [cx2_article]).flatten.map
      SimpleArticle.id) = [1] := by
  have h1 : cluster_articles_greedy (fun _ _ => 0) (9/10) [cx2_article] = [[cx2_article]] := by
    rw [cluster_articles_greedy,
      if_neg (show ¬([cx2_article] = []) from by simp),
      if_neg (show ¬([cx2_article].filter emb_truthy = []) from by decide)]
    norm_num [greedy_loop, similar_indices, pair_sim, article_of,
      emb_truthy, cx2_article, List.range_succ, List.filter_cons, List.filter_nil]
  refine ⟨h1, rfl, by norm_num, by rw [h1]; rfl⟩

/-! ### C9: L2 normalization is total -/

theorem sum_sq_nonneg (v : List ℝ) : 0 ≤ sum_sq v := by
  rw [sum_sq]
  apply List.sum_nonneg
  intro x hx
  rw [List.mem_map] at hx
  obtain ⟨y, _, rfl⟩ := hx
  exact sq_nonneg y

theorem sum_sq_cons (a : ℝ) (t : List ℝ) : sum_sq (a :: t) = a ^ 2 + sum_sq t := by
  simp [sum_sq]

theorem sum_sq_eq_zero_iff (v : List ℝ) : sum_sq v = 0 ↔ ∀ x ∈ v, x = 0 := by
  induction v with
  | nil => simp [sum_sq]
  | cons a t ih =>
    rw [sum_sq_cons, add_eq_zero_iff_of_nonneg (sq_nonneg a) (sum_sq_nonneg t),
      sq_eq_zero_iff, ih]
    simp

theorem sum_sq_map_div (v : List ℝ) (n : ℝ) :
    sum_sq (v.map (fun x => x / n)) = sum_sq v / n ^ 2 := by
  induction v with
  | nil => simp [sum_sq]
  | cons a t ih =>
    rw [List.map_cons, sum_sq_cons, ih, sum_sq_cons]
    ring

theorem l2_norm_pos_of_ne (v : List ℚ) (hx : ∃ x ∈ v, x ≠ 0) :
    0 < l2_norm (castR v) := by
  rw [l2_norm]
  apply Real.sqrt_pos.mpr
  rcases lt_or_eq_of_le (sum_sq_nonneg (castR v)) with h | h
  · exact h
  · exfalso
    obtain ⟨x, hxv, hxne⟩ := hx
    have hmem : ((x : ℚ) : ℝ) ∈ castR v :=
      List.mem_map_of_mem Rat.cast hxv
    have := (sum_sq_eq_zero_iff _).mp h.symm ((x : ℝ)) hmem
    exact hxne (by exact_mod_cast this)

theorem l2_norm_zero_of_all_zero (v : List ℚ) (hz : ∀ x ∈ v, x = 0) :
    l2_norm (castR v) = 0 := by
  rw [l2_norm, Real.sqrt_eq_zero (sum_sq_nonneg _), sum_sq_eq_zero_iff]
  intro x hx
  rw [castR, List.mem_map] at hx
  obtain ⟨y, hy, hyx⟩ := hx
  rw [← hyx]
  exact_mod_cast hz y hy

theorem l2_norm_map_div_self (v : List ℝ) (h : 0 < l2_norm v) :
    l2_norm (v.map (fun x => x / l2_norm v)) = 1 := by
  rw [l2_norm, sum_sq_map_div]
  rw [show l2_norm v ^ 2 = sum_sq v from Real.sq_sqrt (sum_sq_nonneg v)]
  rw [div_self ?hne, Real.sqrt_one]
  case hne =>
    intro h0
    rw [l2_norm, h0, Real.sqrt_zero] at h
    exact lt_irrefl 0 h

/-- C9: the post-processing normalization never divides by zero — a vector
with some non-zero entry (equivalently, non-zero Euclidean norm) is mapped
to a unit-norm vector, and the all-zero vector is returned unchanged; the
same holds for the `np.where(norms == 0, 1, norms)` row normalization of the
density clustering variant. -/
theorem l2_normalization_safe :
    (∀ v : List ℚ, (∃ x ∈ v, x ≠ 0) → l2_norm (postprocess v) = 1) ∧
    (∀ v : List ℚ, (∀ x ∈ v, x = 0) → postprocess v = castR v) ∧
    (∀ v : List ℚ, (∃ x ∈ v, x ≠ 0) → l2_norm (l2_normalize_row v) = 1) ∧
    (∀ v : List ℚ, (∀ x ∈ v, x = 0) → l2_normalize_row v = castR v) := by
  refine ⟨?_, ?_, ?_, ?_⟩
  · intro v hx
    have hpos := l2_norm_pos_of_ne v hx
    rw [postprocess, if_pos hpos]
    exact l2_norm_map_div_self _ hpos
  · intro v hz
    have h0 := l2_norm_zero_of_all_zero v hz
    rw [postprocess, if_neg (by rw [h0]; exact lt_irrefl 0)]
  · intro v hx
    have hpos := l2_norm_pos_of_ne v hx
    rw [l2_normalize_row]
    simp only [if_neg (ne_of_gt hpos)]
    exact l2_norm_map_div_self _ hpos
  · intro v hz
    have h0 := l2_norm_zero_of_all_zero v hz
    rw [l2_normalize_row]
    simp only [if_pos h0, div_one, List.map_id']

/-- Witness for `l2_normalization_safe` at concrete vectors. -/
theorem l2_normalization_safe_witness :
    l2_norm (postprocess [3, 4]) = 1 ∧
    postprocess [0, 0] = castR [0, 0] ∧
    l2_norm (l2_normalize_row [3, 4]) = 1 ∧
    l2_normalize_row [0, 0] = castR [0, 0] :=
  ⟨l2_normalization_safe.1 [3, 4] (by norm_num),
   l2_normalization_safe.2.1 [0, 0] (by norm_num),
   l2_normalization_safe.2.2.1 [3, 4] (by norm_num),
   l2_normalization_safe.2.2.2 [0, 0] (by norm_num)⟩

/-! ### C8: a single like yields the normalized article embedding -/

theorem vec_mean_single (w : ℚ) (v : List ℚ) (hw : w ≠ 0) :
    vec_div (vec_sum [vec_scale w v]) (0 + w) = v := by
  rw [vec_sum, List.foldl_nil, vec_scale, vec_div, List.map_map, zero_add]
  have hfun : ((fun x => x / w) ∘ fun x => x * w) = fun x : ℚ => x := by
    funext x
    exact mul_div_cancel_right₀ x hw
  rw [hfun, List.map_id']

theorem compute_user_embedding_single_like (X : Int) (ae : Int → Option (List ℚ))
    (asec : Int → Option Int) (prefs : Int → Option ℚ) (v : List ℚ)
    (hemb : ae X = some v) (hpref : ∀ sid, prefs sid = none) :
    compute_user_embedding [X] [] [] ae asec prefs = some v := by
  cases hsec : asec X with
  | none =>
    simp only [compute_user_embedding, accumulate_interactions, List.foldl_cons,
      List.foldl_nil, interaction_step, hemb, hsec, List.nil_append]
    rw [if_neg (by push_neg; exact ⟨by simp, by norm_num [LIKE_WEIGHT]⟩)]
    rw [vec_mean_single (LIKE_WEIGHT * 1) v (by norm_num [LIKE_WEIGHT])]
  | some sid =>
    simp only [compute_user_embedding, accumulate_interactions, List.foldl_cons,
      List.foldl_nil, interaction_step, hemb, hsec, hpref, List.nil_append]
    rw [if_neg (by push_neg; exact ⟨by simp, by norm_num [LIKE_WEIGHT]⟩)]
    rw [vec_mean_single (LIKE_WEIGHT * 1) v (by norm_num [LIKE_WEIGHT])]

/-- C8: a user whose only interaction is a single like on article `X` with
embedding `v`, and whose preference map is empty, gets exactly the
post-processed (L2-normalized) `v`: the weighted mean over the single pair
(v, 3 * 1.0) is `v` itself. -/
theorem single_like_user_embedding (s : Store) (u X : Int) (v : List ℚ)
    (hlikes : likes_of s u = [X]) (hscraps : scraps_of s u = [])
    (hviews : views_of s u = []) (hemb : s.articleEmbeddings X = some v)
    (hprefs : s.prefRows u = []) :
    generate_user_embedding s u = some (postprocess v) := by
  rw [generate_user_embedding, hlikes, hscraps, hviews]
  rw [if_neg (by simp)]
  rw [compute_user_embedding_single_like X s.articleEmbeddings s.articleSections
    (pref_lookup s u) v hemb (fun sid => by rw [pref_lookup, hprefs]; rfl)]

/-- The store of the single-like witness: user 1 liked article 5, whose
embedding is [1, 2]; no other interaction, preference or section data. -/
def w8_store : Store :=
  ⟨[(1, 5)], [], [], fun a => if a = 5 then some [1, 2] else none,
   fun _ => none, fun _ => [], [], []⟩

/-- Witness for `single_like_user_embedding` at a concrete store. -/
theorem single_like_user_embedding_witness :
    generate_user_embedding w8_store 1 = some (postprocess [1, 2]) :=
  single_like_user_embedding w8_store 1 5 [1, 2] (by decide) (by decide) (by decide)
    (by decide) rfl

/-! ### C5: bulk versus single-user generation -/

theorem map_insert_self (m : UserMap) (k : Int) (v : List ℝ) :
    map_insert m k v k = some v := by
  rw [map_insert]
  simp

theorem map_insert_other (m : UserMap) (k k' : Int) (v : List ℝ) (h : k' ≠ k) :
    map_insert m k v k' = m k' := by
  rw [map_insert]
  simp [h]

theorem interaction_fold_untouched (s : Store) (A : List Int) :
    ∀ (l : List Int) (m : UserMap) (u : Int), u ∉ l →
      l.foldl (interaction_step_user s A) m u = m u := by
  intro l
  induction l with
  | nil => intro m u _; rfl
  | cons a rest ih =>
    intro m u hu
    have hne : u ≠ a := fun h => hu (h ▸ List.mem_cons_self a rest)
    rw [List.foldl_cons, ih (interaction_step_user s A m a) u
      (fun h => hu (List.mem_cons_of_mem a h))]
    rcases hb : bulk_compute s A a with _ | e
    · rw [interaction_step_user, hb]
    · rw [interaction_step_user, hb]
      exact map_insert_other m a u _ hne

theorem interaction_fold_visited (s : Store) (A : List Int) :
    ∀ (l : List Int) (m : UserMap) (u : Int), u ∈ l → l.Nodup → m u = none →
      l.foldl (interaction_step_user s A) m u = (bulk_compute s A u).map postprocess := by
  intro l
  induction l with
  | nil => intro m u hu _ _; exact absurd hu (List.not_mem_nil u)
  | cons a rest ih =>
    intro m u hu hnd hmu
    rw [List.foldl_cons]
    rcases List.mem_cons.mp hu with rfl | hu'
    · have hnotin : u ∉ rest := (List.nodup_cons.mp hnd).1
      rw [interaction_fold_untouched s A rest _ u hnotin]
      rcases hb : bulk_compute s A u with _ | e
      · rw [interaction_step_user, hb]
        exact hmu
      · rw [interaction_step_user, hb]
        exact map_insert_self m u (postprocess e)
    · have hane : a ∉ rest := (List.nodup_cons.mp hnd).1
      have hne : u ≠ a := fun h => hane (h ▸ hu')
      refine ih (interaction_step_user s A m a) u hu' (List.nodup_cons.mp hnd).2 ?_
      rcases hb : bulk_compute s A a with _ | e
      · rw [interaction_step_user, hb]
        exact hmu
      · rw [interaction_step_user, hb]
        exact (map_insert_other m a u _ hne).trans hmu

theorem interaction_pass_eq (s : Store) (A : List Int) (u : Int)
    (hu : u ∈ interacted_users s) :
    interaction_pass s A u = (bulk_compute s A u).map postprocess :=
  interaction_fold_visited s A (interacted_users s) empty_map u hu
    (List.nodup_dedup _) rfl

theorem interaction_pass_none (s : Store) (A : List Int) (u : Int)
    (hu : u ∉ interacted_users s) :
    interaction_pass s A u = none :=
  interaction_fold_untouched s A (interacted_users s) empty_map u hu

theorem cold_fold_preserve (s : Store) (A : List Int) :
    ∀ (l : List Int) (m : UserMap) (u : Int) (v : List ℝ), m u = some v →
      l.foldl (cold_step_user s A) m u = some v := by
  intro l
  induction l with
  | nil => intro m u v h; exact h
  | cons a rest ih =>
    intro m u v h
    rw [List.foldl_cons]
    refine ih _ u v ?_
    rw [cold_step_user]
    by_cases hma : (m a).isSome
    · rw [if_pos hma]; exact h
    · rw [if_neg hma]
      rcases hc : cold_value_bulk s A a with _ | w
      · exact h
      · by_cases hau : u = a
        · subst hau
          rw [h] at hma
          simp at hma
        · exact (map_insert_other m a u w hau).trans h

theorem cold_fold_absent (s : Store) (A : List Int) :
    ∀ (l : List Int) (m : UserMap) (u : Int), cold_value_bulk s A u = none → m u = none →
      l.foldl (cold_step_user s A) m u = none := by
  intro l
  induction l with
  | nil => intro m u _ h; exact h
  | cons a rest ih =>
    intro m u hcv h
    rw [List.foldl_cons]
    refine ih _ u hcv ?_
    rw [cold_step_user]
    by_cases hma : (m a).isSome
    · rw [if_pos hma]; exact h
    · rw [if_neg hma]
      rcases hc : cold_value_bulk s A a with _ | w
      · exact h
      · by_cases hau : u = a
        · subst hau
          rw [hc] at hcv
          exact absurd hcv (by simp)
        · exact (map_insert_other m a u w hau).trans h

theorem cold_fold_mem (s : Store) (A : List Int) :
    ∀ (l : List Int) (m : UserMap) (u : Int), u ∈ l → m u = none →
      l.foldl (cold_step_user s A) m u = cold_value_bulk s A u := by
  intro l
  induction l with
  | nil => intro m u hu _; exact absurd hu (List.not_mem_nil u)
  | cons a rest ih =>
    intro m u hu hmu
    rw [List.foldl_cons]
    by_cases hau : u = a
    · subst hau
      rw [cold_step_user, if_neg (by rw [hmu]; simp)]
      rcases hc : cold_value_bulk s A u with _ | w
      · exact cold_fold_absent s A rest m u hc hmu
      · exact cold_fold_preserve s A rest _ u w (map_insert_self m u w)
    · have hu' : u ∈ rest := by
        rcases List.mem_cons.mp hu with h | h
        · exact absurd h hau
        · exact h
      refine ih _ u hu' ?_
      rw [cold_step_user]
      by_cases hma : (m a).isSome
      · rw [if_pos hma]; exact hmu
      · rw [if_neg hma]
        rcases hc : cold_value_bulk s A a with _ | w
        · exact hmu
        · exact (map_insert_other m a u w hau).trans hmu

theorem rows_for_eq_nil_iff (rows : List (Int × Int)) (u : Int) :
    rows_for rows u = [] ↔ ∀ r ∈ rows, r.1 ≠ u := by
  rw [rows_for, List.map_eq_nil_iff, List.filter_eq_nil_iff]
  simp

theorem mem_interacted_users_iff (s : Store) (u : Int) :
    u ∈ interacted_users s ↔
      likes_of s u ++ scraps_of s u ++ views_of s u ≠ [] := by
  rw [interacted_users, List.mem_dedup, List.mem_map]
  constructor
  · rintro ⟨r, hr, hru⟩ hnil
    rcases List.append_eq_nil.mp hnil with ⟨hLS, hV⟩
    rcases List.append_eq_nil.mp hLS with ⟨hL, hS⟩
    rcases List.mem_append.mp hr with hr' | hr'
    · rcases List.mem_append.mp hr' with hr'' | hr''
      · exact (rows_for_eq_nil_iff _ _).mp hL r hr'' hru
      · exact (rows_for_eq_nil_iff _ _).mp hS r hr'' hru
    · exact (rows_for_eq_nil_iff _ _).mp hV r hr' hru
  · intro h
    by_contra hno
    push_neg at hno
    apply h
    rw [List.append_eq_nil, List.append_eq_nil]
    refine ⟨⟨?_, ?_⟩, ?_⟩
    · rw [likes_of, rows_for_eq_nil_iff]
      exact fun r hr => hno r (List.mem_append_left _ (List.mem_append_left _ hr))
    · rw [scraps_of, rows_for_eq_nil_iff]
      exact fun r hr => hno r (List.mem_append_left _ (List.mem_append_right _ hr))
    · rw [views_of, rows_for_eq_nil_iff]
      exact fun r hr => hno r (List.mem_append_right _ hr)

theorem bulk_compute_eq (s : Store) (A : List Int) (u : Int) (hu : u ∈ A) :
    bulk_compute s A u = compute_user_embedding (likes_of s u) (scraps_of s u)
      (views_of s u) s.articleEmbeddings s.articleSections (pref_lookup s u) := by
  rw [bulk_compute]
  congr 1
  funext sid
  rw [bulk_prefs, if_pos hu, pref_lookup]

theorem compute_user_embedding_nil (ae : Int → Option (List ℚ))
    (asec : Int → Option Int) (prefs : Int → Option ℚ) :
    compute_user_embedding [] [] [] ae asec prefs = none := rfl

/-- C5 amended: the bulk and single-user generators agree on every user of
the processed user list, given that the sampled section means coincide with
the precomputed section-mean table, for every user whose embedding does not
come from the global-mean fallback; on the global-mean fallback the two
modules compute different vectors — the single module averages the
section-mean vectors, the bulk module averages the sampled article
embeddings (see `bulk_single_global_fallback_diverges`). -/
theorem bulk_refines_single_off_global_path (s : Store) (allUsers : List Int) (u : Int)
    (hmem : u ∈ allUsers)
    (hmeans : ∀ sid, derived_section_means s sid = table_means_lookup s sid)
    (hnoglobal : bulk_compute s allUsers u ≠ none ∨
      section_preference_embedding (s.prefRows u) (table_means_lookup s) ≠ none) :
    generate_all_user_embeddings s allUsers u = generate_user_embedding s u := by
  have hmf : derived_section_means s = table_means_lookup s := funext hmeans
  have hbp : bulk_prefs s allUsers u = s.prefRows u := by rw [bulk_prefs, if_pos hmem]
  have hcv : cold_value_bulk s allUsers u =
      (match section_preference_embedding (s.prefRows u) (table_means_lookup s) with
       | some cold => some (postprocess cold)
       | none =>
          match global_mean_bulk s with
          | some g => some (postprocess g)
          | none => none) := by
    rw [cold_value_bulk, hbp, hmf]
  rw [generate_all_user_embeddings]
  by_cases hi : u ∈ interacted_users s
  · have hip := interaction_pass_eq s allUsers u hi
    have hcomp := bulk_compute_eq s allUsers u hmem
    rcases hb : bulk_compute s allUsers u with _ | e
    · have hstart : interaction_pass s allUsers u = none := by rw [hip, hb]; rfl
      rw [cold_fold_mem s allUsers allUsers _ u hmem hstart, hcv]
      rw [generate_user_embedding, if_neg ((mem_interacted_users_iff s u).mp hi)]
      have hsc : compute_user_embedding (likes_of s u) (scraps_of s u) (views_of s u)
          s.articleEmbeddings s.articleSections (pref_lookup s u) = none := by
        rw [← hcomp]
        exact hb
      rcases hsp : section_preference_embedding (s.prefRows u) (table_means_lookup s)
        with _ | c
      · rcases hnoglobal with h | h
        · exact absurd hb h
        · exact absurd hsp h
      · simp only [hsc, cold_path_single, hsp]
    · have hstart : interaction_pass s allUsers u = some (postprocess e) := by
        rw [hip, hb]
        rfl
      rw [cold_fold_preserve s allUsers allUsers _ u _ hstart]
      rw [generate_user_embedding, if_neg ((mem_interacted_users_iff s u).mp hi)]
      have hsc : compute_user_embedding (likes_of s u) (scraps_of s u) (views_of s u)
          s.articleEmbeddings s.articleSections (pref_lookup s u) = some e := by
        rw [← hcomp]
        exact hb
      simp only [hsc]
  · have hnil : likes_of s u ++ scraps_of s u ++ views_of s u = [] := by
      by_contra hne
      exact hi ((mem_interacted_users_iff s u).mpr hne)
    rcases List.append_eq_nil.mp hnil with ⟨hLS, hV⟩
    rcases List.append_eq_nil.mp hLS with ⟨hL, hS⟩
    have hb : bulk_compute s allUsers u = none := by
      rw [bulk_compute, hL, hS, hV]
      exact compute_user_embedding_nil _ _ _
    have hstart : interaction_pass s allUsers u = none :=
      interaction_pass_none s allUsers u hi
    rw [cold_fold_mem s allUsers allUsers _ u hmem hstart, hcv]
    rw [generate_user_embedding, hnil, if_pos rfl]
    rcases hsp : section_preference_embedding (s.prefRows u) (table_means_lookup s)
      with _ | c
    · rcases hnoglobal with h | h
      · exact absurd hb h
      · exact absurd hsp h
    · simp only [cold_path_single, hsp]

/-- The store of the bulk/single agreement witness: user 1 liked article 5;
no section data at all. -/
def w5_store : Store :=
  ⟨[(1, 5)], [], [], fun a => if a = 5 then some [1, 0] else none,
   fun _ => none, fun _ => [], [], []⟩

/-- Witness for `bulk_refines_single_off_global_path` at a concrete store. -/
theorem bulk_refines_single_witness :
    generate_all_user_embeddings w5_store [1] 1 = generate_user_embedding w5_store 1 :=
  bulk_refines_single_off_global_path w5_store [1] 1 (by simp)
    (fun _ => rfl)
    (Or.inl (by
      have hval : bulk_compute w5_store [1] 1 = some [1, 0] := by
        norm_num [bulk_compute, compute_user_embedding, accumulate_interactions,
          interaction_step, likes_of, scraps_of, views_of, rows_for, w5_store, bulk_prefs,
          dict_get, LIKE_WEIGHT, SCRAP_WEIGHT, DETAIL_VIEW_WEIGHT, vec_scale, vec_sum,
          vec_div]
      rw [hval]
      exact Option.some_ne_none _))

/-- The store of the global-fallback counterexample: no interactions, no
preferences; the section-mean table holds sections 1 ↦ (1,0) and 2 ↦ (0,1);
the bulk module's samples are one article for section 1 and two articles for
section 2, whose embeddings reproduce exactly those section means. -/
def cx5_store : Store :=
  ⟨[], [], [],
   fun aid =>
     if aid = 10 then some [1, 0]
     else if aid = 20 then some [0, 1]
     else if aid = 21 then some [0, 1]
     else none,
   fun _ => none, fun _ => [],
   [(1, [1, 0]), (2, [0, 1])],
   [(1, [10]), (2, [20, 21])]⟩

/-- C5 counterexample: although the sampled section means equal the table's
section means, a user hitting the global-mean fallback gets different
embeddings from the two modules — the bulk module normalizes the mean of
the three sampled article embeddings (1/3, 2/3), the single module the mean
of the two section-mean vectors (1/2, 1/2). -/
theorem bulk_single_global_fallback_diverges :
    derived_section_means cx5_store 1 = table_means_lookup cx5_store 1 ∧
    derived_section_means cx5_store 2 = table_means_lookup cx5_store 2 ∧
    generate_all_user_embeddings cx5_store [1] 1 = some (postprocess [1/3, 2/3]) ∧
    generate_user_embedding cx5_store 1 = some (postprocess [1/2, 1/2]) ∧
    generate_all_user_embeddings cx5_store [1] 1 ≠ generate_user_embedding cx5_store 1 := by
  have hdedup : (sample_ids cx5_store).dedup = [10, 20, 21] := by decide
  have hrows : sample_embedding_rows cx5_store = [(10, [1, 0]), (20, [0, 1]), (21, [0, 1])] := by
    rw [sample_embedding_rows, hdedup]
    rfl
  have hmean3 : mean_embedding [[1, 0], [0, 1], [0, 1]] = [1/3, 2/3] := by
    norm_num [mean_embedding, vec_sum, vec_add, vec_div]
  have hglobal : global_mean_bulk cx5_store = some [1/3, 2/3] := by
    rw [global_mean_bulk, hrows, if_neg (by simp)]
    rw [show ([(10, [1, 0]), (20, [0, 1]), (21, [0, 1])] :
      List (Int × List ℚ)).map Prod.snd = [[1, 0], [0, 1], [0, 1]] from rfl, hmean3]
  have hcold : cold_value_bulk cx5_store [1] 1 = some (postprocess [1/3, 2/3]) := by
    rw [cold_value_bulk,
      show section_preference_embedding (bulk_prefs cx5_store [1] 1)
        (derived_section_means cx5_store) = none from rfl,
      hglobal]
  have h1 : generate_all_user_embeddings cx5_store [1] 1 = some (postprocess [1/3, 2/3]) := by
    rw [generate_all_user_embeddings,
      show interaction_pass cx5_store [1] = empty_map from rfl,
      List.foldl_cons, List.foldl_nil, cold_step_user,
      if_neg (by rw [show (empty_map (1 : Int)).isSome = false from rfl]; simp),
      hcold]
    exact map_insert_self empty_map 1 (postprocess [1/3, 2/3])
  have hmean2 : mean_embedding [[1, 0], [0, 1]] = [1/2, 1/2] := by
    norm_num [mean_embedding, vec_sum, vec_add, vec_div]
  have h2 : generate_user_embedding cx5_store 1 = some (postprocess [1/2, 1/2]) := by
    rw [generate_user_embedding, if_pos (by rfl), cold_path_single,
      show section_preference_embedding (cx5_store.prefRows 1)
        (table_means_lookup cx5_store) = none from rfl,
      if_neg (by simp [cx5_store]),
      show cx5_store.sectionMeansTable.map Prod.snd = [[1, 0], [0, 1]] from rfl,
      hmean2]
  have hd1 : derived_section_means cx5_store 1 = table_means_lookup cx5_store 1 := by
    rw [show derived_section_means cx5_store 1
      = (if ([[1, 0]] : List (List ℚ)) = [] then none
         else some (mean_embedding [[1, 0]])) from rfl]
    rw [if_neg (by simp)]
    rw [show table_means_lookup cx5_store 1 = some [1, 0] from rfl]
    norm_num [mean_embedding, vec_sum, vec_add, vec_div]
  have hd2 : derived_section_means cx5_store 2 = table_means_lookup cx5_store 2 := by
    rw [show derived_section_means cx5_store 2
      = (if ([[0, 1], [0, 1]] : List (List ℚ)) = [] then none
         else some (mean_embedding [[0, 1], [0, 1]])) from rfl]
    rw [if_neg (by simp)]
    rw [show table_means_lookup cx5_store 2 = some [0, 1] from rfl]
    norm_num [mean_embedding, vec_sum, vec_add, vec_div]
  refine ⟨hd1, hd2, h1, h2, ?_⟩
  rw [h1, h2]
  intro hsome
  rw [Option.some_inj] at hsome
  have hpos1 : 0 < l2_norm (castR [1/3, 2/3]) :=
    l2_norm_pos_of_ne [1/3, 2/3] ⟨1/3, by norm_num, by norm_num⟩
  have hpos2 : 0 < l2_norm (castR [1/2, 1/2]) :=
    l2_norm_pos_of_ne [1/2, 1/2] ⟨1/2, by norm_num, by norm_num⟩
  rw [postprocess, if_pos hpos1, postprocess, if_pos hpos2] at hsome
  rw [show castR [1/3, 2/3] = [((1/3 : ℚ) : ℝ), ((2/3 : ℚ) : ℝ)] from rfl,
    show castR [1/2, 1/2] = [((1/2 : ℚ) : ℝ), ((1/2 : ℚ) : ℝ)] from rfl] at hsome
  simp only [List.map_cons, List.map_nil, List.cons.injEq, and_true] at hsome
  obtain ⟨e1, e2⟩ := hsome
  have h12 := e1.trans e2.symm
  have hn1 : l2_norm [((1/3 : ℚ) : ℝ), ((2/3 : ℚ) : ℝ)] ≠ 0 := ne_of_gt hpos1
  have hcc : ((1/3 : ℚ) : ℝ) = ((2/3 : ℚ) : ℝ) := by
    have hmul := congrArg
      (fun x : ℝ => x * l2_norm [((1/3 : ℚ) : ℝ), ((2/3 : ℚ) : ℝ)]) h12
    simp only [] at hmul
    rw [div_mul_cancel₀ _ hn1, div_mul_cancel₀ _ hn1] at hmul
    exact hmul
  have hbad : (1/3 : ℚ) = (2/3 : ℚ) := by exact_mod_cast hcc
  norm_num at hbad
